import Mathlib

/-!
Shallow embedding of the MindLink prototype (src/src/MindLink.jsx): the
safe localStorage helpers (safeGet, safeSet), the mock post service
(fetchPosts, likePost) and the Insight engine (recordTags, suggest,
recordMood, dump), together with theorems checking the specification
claims against them.
-/

namespace MindLink

/-- A post exactly as the mock service stores it: id, author id, content,
tag list, like count and creation timestamp in milliseconds
(MindLink.jsx lines 60-77). Posts of this draft carry no boost field. -/
structure Post where
  id : String
  authorId : String
  content : String
  tags : List String
  likes : Nat
  createdAt : Nat
  deriving DecidableEq, Repr

/-- The JS comparator on posts, (a, b) => b.createdAt - a.createdAt: a
sorts before b exactly when b.createdAt ≤ a.createdAt (newest first). -/
def byNewest (a b : Post) : Prop := b.createdAt ≤ a.createdAt

instance : DecidableRel byNewest :=
  fun a b => inferInstanceAs (Decidable (b.createdAt ≤ a.createdAt))

instance : IsTotal Post byNewest :=
  ⟨fun a b => (Nat.le_total a.createdAt b.createdAt).symm⟩

instance : IsTrans Post byNewest :=
  ⟨fun _ _ _ hab hbc => Nat.le_trans hbc hab⟩

/-- The fetchPosts operation (MindLink.jsx line 83):
posts.slice().sort((a, b) => b.createdAt - a.createdAt) — a copy of the
post list, sorted by descending creation time with a stable sort. -/
def fetchPosts (posts : List Post) : List Post :=
  List.insertionSort byNewest posts

/-- The likePost operation (MindLink.jsx lines 89-92): map over the posts,
replacing each post whose id matches with a copy whose like count is one
higher, and keeping every other post as it is. -/
def likePost (id : String) (posts : List Post) : List Post :=
  posts.map fun p => if p.id = id then { p with likes := p.likes + 1 } else p

/-- A JavaScript value as far as the Insight engine stores one: recordMood
stores its argument unchecked, so the embedding keeps non-numeric values
representable. -/
inductive JVal where
  | num (q : ℚ)
  | str (s : String)
  | bool (b : Bool)
  | null
  deriving DecidableEq, Repr

/-- One entry of the mood list: the recorded value v and the timestamp t
taken from Date.now() (MindLink.jsx line 155). -/
structure MoodSample where
  v : JVal
  t : Nat
  deriving DecidableEq, Repr

/-- The Insight blob persisted under the key ml_insight_v2: tag counters
as a JS object, kept here as an insertion-ordered association list with
unique keys, the mood sample list, and the engages counter
(MindLink.jsx line 139). -/
structure InsightState where
  tags : List (String × Nat)
  mood : List MoodSample
  engages : Nat
  deriving DecidableEq, Repr

/-- The fallback blob used at module init (MindLink.jsx line 139). -/
def emptyInsight : InsightState := { tags := [], mood := [], engages := 0 }

/-- The JS update s.tags[t] = (s.tags[t] || 0) + 1 on an object kept as an
insertion-ordered association list: an existing key keeps its position
and gains one; a new key is appended with count one. -/
def bumpTag (t : String) : List (String × Nat) → List (String × Nat)
  | [] => [(t, 1)]
  | (k, c) :: rest =>
      if k = t then (k, c + 1) :: rest else (k, c) :: bumpTag t rest

/-- The JS read s.tags[t] || 0: the counter stored for a tag, zero when
the key is absent. -/
def getCount (ts : List (String × Nat)) (t : String) : Nat :=
  match ts with
  | [] => 0
  | (k, c) :: rest => if k = t then c else getCount rest t

/-- The recordTags operation (MindLink.jsx lines 141-148) acting on the
state it read: every listed tag bumps its counter — the code has no
blank-tag filter — and engages increases by one. -/
def recordTagsState (tags : List String) (s : InsightState) : InsightState :=
  { s with
      tags := tags.foldl (fun ts t => bumpTag t ts) s.tags,
      engages := s.engages + 1 }

/-- The JS comparator on tag entries, (a, b) => b[1] - a[1]: an entry
sorts before another exactly when its count is at least as large. -/
def byCount (a b : String × Nat) : Prop := b.2 ≤ a.2

instance : DecidableRel byCount :=
  fun a b => inferInstanceAs (Decidable (b.2 ≤ a.2))

instance : IsTotal (String × Nat) byCount :=
  ⟨fun a b => (Nat.le_total a.2 b.2).symm⟩

instance : IsTrans (String × Nat) byCount :=
  ⟨fun _ _ _ hab hbc => Nat.le_trans hbc hab⟩

/-- The suggest operation before its final map to tag names
(MindLink.jsx lines 149-152):
Object.entries(s.tags).sort((a, b) => b[1] - a[1]).slice(0, limit). -/
def suggestEntries (s : InsightState) (limit : Nat) : List (String × Nat) :=
  (List.insertionSort byCount s.tags).take limit

/-- The suggest operation (MindLink.jsx lines 149-152): the sorted,
truncated tag entries mapped to their names. -/
def suggest (s : InsightState) (limit : Nat) : List String :=
  (suggestEntries s limit).map Prod.fst

/-- Array.prototype.slice(-n): the last n elements of a list — the whole
list when it is no longer than n. -/
def takeLast {α : Type} (n : Nat) (l : List α) : List α :=
  l.drop (l.length - n)

/-- The recordMood operation (MindLink.jsx lines 153-157) acting on the
state it read: s.mood = (s.mood || []).concat(sample).slice(-80), where
the sample pairs the given value v with the current time. The code
performs no numeric check on v. -/
def recordMoodState (v : JVal) (now : Nat) (s : InsightState) : InsightState :=
  { s with mood := takeLast 80 (s.mood ++ [⟨v, now⟩]) }

/-- What a safeGet read of local storage can encounter
(MindLink.jsx lines 28-36): no storage facility, getItem throwing, no raw
value under the key, JSON.parse throwing on a corrupt value, or a
parseable stored value. -/
inductive StorageRead (α : Type) where
  | unavailable
  | getThrows
  | missing
  | corrupt
  | stored (v : α)

/-- The safeGet helper (MindLink.jsx lines 28-36): every failing branch —
no facility, getItem throwing, a null raw value, JSON.parse throwing —
returns the fallback; only a parseable stored value is returned. -/
def safeGet {α : Type} (r : StorageRead α) (fallback : α) : α :=
  match r with
  | .stored v => v
  | _ => fallback

/-- How a safeSet write can end (MindLink.jsx lines 37-42): no storage
facility, setItem throwing, or success. -/
inductive WriteEnd where
  | unavailable
  | setThrows
  | ok

/-- The safeSet helper (MindLink.jsx lines 37-42), described by the stored
blob after the call: replaced on success, untouched when the facility is
missing or setItem throws; the helper itself always returns normally
because its catch block is empty. -/
def safeSet {α : Type} (w : WriteEnd) (stored : Option α) (v : α) : Option α :=
  match w with
  | .ok => some v
  | _ => stored

/-- One browsing session of the Insight engine. base is the module-level
object captured at init (MindLink.jsx line 139), handed back by reference
whenever safeGet falls back to it; stored is the parseable durable blob,
if any; readFallback says every durable read itself falls back (storage
unavailable or getItem throwing); writeOk says whether setItem succeeds. -/
structure Session where
  base : InsightState
  stored : Option InsightState
  readFallback : Bool
  writeOk : Bool

/-- A safeGet(KEY, base) call inside an Insight operation: the state it
returns, paired with whether that state is the base object itself
(aliased) rather than a fresh JSON.parse result. -/
def sessionRead (sess : Session) : InsightState × Bool :=
  if sess.readFallback then (sess.base, true)
  else
    match sess.stored with
    | some v => (v, false)
    | none => (sess.base, true)

/-- Insight.recordMood at session level (MindLink.jsx lines 153-157): read
the state — possibly the aliased base object — rewrite its mood field,
which mutates base exactly when the read returned base itself, then
safeSet the result, which replaces the stored blob only when the write
succeeds. -/
def recordMoodSession (v : JVal) (now : Nat) (sess : Session) : Session :=
  let r := sessionRead sess
  let s := recordMoodState v now r.1
  { sess with
      base := if r.2 then s else sess.base,
      stored := if sess.writeOk then some s else sess.stored }

/-- Insight.dump, and equally any later in-session read of the state
(MindLink.jsx line 158): safeGet(KEY, base). -/
def dumpSession (sess : Session) : InsightState := (sessionRead sess).1

/-- Clamp a rational to the unit interval. -/
def clamp01 (x : ℚ) : ℚ := max 0 (min 1 x)

/-- The numeric values among recorded mood samples, in order. -/
def moodNums (ms : List MoodSample) : List ℚ :=
  ms.filterMap fun m =>
    match m.v with
    | .num q => some q
    | _ => none

/-- Modelled from the spec: an inferMood operation — arithmetic mean of
the retained mood samples, the neutral default 0.5 when no samples exist,
and a defensive clamp to the unit interval — is specified but absent from
the draft under src, whose Insight object exposes only recordTags,
suggest, recordMood and dump. -/
def inferMood (ms : List ℚ) : ℚ :=
  if ms.isEmpty then 1 / 2 else clamp01 (ms.sum / ms.length)

/-- Spec-side score for the refinement comparison, from the words of the
spec: score = boosts * 20 + likes * 1.5 + recencyBonus * 2 with
recencyBonus = max(0, 48 - ageHours). Posts of this draft carry no boost
field, so the boost term is zero for every post the service handles. -/
def specRecency (now : Nat) (p : Post) : ℚ :=
  max 0 (48 - ((now : ℚ) - (p.createdAt : ℚ)) / 3600000)

/-- Spec-side score, boost term zero as explained at specRecency. -/
def specScore (now : Nat) (p : Post) : ℚ :=
  0 * 20 + (p.likes : ℚ) * (3 / 2) + specRecency now p * 2

/-- The output order the spec claims for the feed: descending score, ties
broken by descending createdAt (newer first). -/
def specRanked (now : Nat) (l : List Post) : Prop :=
  l.Pairwise fun a b =>
    specScore now b < specScore now a ∨
      (specScore now a = specScore now b ∧ b.createdAt ≤ a.createdAt)

/-- A stale post whose score under the spec formula comes from likes
alone: at time 172800000 ms it is exactly 48 hours old. -/
def postX : Post :=
  { id := "p_x", authorId := "u_ava", content := "x", tags := [],
    likes := 100, createdAt := 0 }

/-- A brand-new post with no likes, whose score under the spec formula
comes from the recency bonus alone. -/
def postY : Post :=
  { id := "p_y", authorId := "u_rui", content := "y", tags := [],
    likes := 0, createdAt := 172800000 }

theorem length_takeLast {α : Type} (n : Nat) (l : List α) :
    (takeLast n l).length = min n l.length := by
  simp only [takeLast, List.length_drop]
  omega

theorem takeLast_of_length_le {α : Type} {n : Nat} {l : List α}
    (h : l.length ≤ n) : takeLast n l = l := by
  simp [takeLast, Nat.sub_eq_zero_of_le h]

theorem takeLast_append_single {α : Type} (n : Nat) (hn : 0 < n)
    (l : List α) (x : α) :
    takeLast n (l ++ [x]) = l.drop (l.length + 1 - n) ++ [x] := by
  unfold takeLast
  rw [List.length_append, List.drop_append_eq_append_drop]
  have h1 : l.length + [x].length - n - l.length = 0 := by simp; omega
  rw [h1]
  simp

theorem takeLast_takeLast_append {α : Type} (n : Nat) (l m : List α) :
    takeLast n (takeLast n l ++ m) = takeLast n (l ++ m) := by
  rcases Nat.le_total l.length n with h | h
  · rw [takeLast_of_length_le h]
  · unfold takeLast
    rw [List.drop_append_eq_append_drop, List.drop_append_eq_append_drop,
        List.drop_drop, List.length_append, List.length_append,
        List.length_drop]
    have e1 : l.length - n + (l.length - (l.length - n) + m.length - n) =
        l.length + m.length - n := by omega
    have e2 : l.length - (l.length - n) + m.length - n -
        (l.length - (l.length - n)) = l.length + m.length - n - l.length := by
      omega
    rw [e1, e2]

/-- The newest sample always survives the slice(-80) cap. -/
theorem recordMood_getLast (v : JVal) (now : Nat) (s : InsightState) :
    (recordMoodState v now s).mood.getLast? = some ⟨v, now⟩ := by
  simp only [recordMoodState]
  rw [takeLast_append_single 80 (by norm_num)]
  exact List.getLast?_concat _

/-- Claim C1, counterexample: at time 172800000 ms, postX is 48 hours old
with spec score 150 from its likes, and postY is brand new with spec
score 96 from recency alone, yet fetchPosts returns postY first — the
feed is ordered by createdAt alone, not by the claimed score. -/
theorem c1_counterexample :
    fetchPosts [postX, postY] = [postY, postX] ∧
      ¬ specRanked 172800000 (fetchPosts [postX, postY]) := by
  have hfetch : fetchPosts [postX, postY] = [postY, postX] := by decide
  have hX : specScore 172800000 postX = 150 := by
    norm_num [specScore, specRecency, postX]
  have hY : specScore 172800000 postY = 96 := by
    norm_num [specScore, specRecency, postY]
  refine ⟨hfetch, ?_⟩
  rw [hfetch]
  simp only [specRanked, List.pairwise_cons, List.mem_singleton]
  intro h
  have hrel := h.1 postX rfl
  rw [hX, hY] at hrel
  rcases hrel with hlt | ⟨heq, -⟩
  · norm_num at hlt
  · norm_num at heq

/-- Claim C1, amended: fetchPosts returns a permutation of the input
sorted by descending createdAt alone (newer first); no score enters the
comparison. -/
theorem c1_fetchPosts_sorted_by_createdAt (posts : List Post) :
    (fetchPosts posts).Perm posts ∧
      (fetchPosts posts).Pairwise fun a b => b.createdAt ≤ a.createdAt :=
  ⟨List.perm_insertionSort byNewest posts,
    List.sorted_insertionSort byNewest posts⟩

/-- Claim C8: fetchPosts output is a permutation of the input, every
element kept with its exact multiplicity; the JS code copies the array
with slice() before the in-place sort, so the embedding is a pure
function of the input list. -/
theorem c8_fetchPosts_perm (posts : List Post) :
    (fetchPosts posts).Perm posts ∧
      ∀ p : Post, (fetchPosts posts).count p = posts.count p :=
  have h := List.perm_insertionSort byNewest posts
  ⟨h, fun p => h.count_eq p⟩

/-- Claim C9: for every fallback value, each failing read branch of
safeGet (storage unavailable, getItem throwing, nothing stored, corrupt
JSON) returns the fallback, and each failing write branch of safeSet
(storage unavailable, setItem throwing) leaves the stored blob untouched
while returning normally to the caller. -/
theorem c9_safe_storage (α : Type) (fallback v : α) (stored : Option α) :
    safeGet StorageRead.unavailable fallback = fallback ∧
      safeGet StorageRead.getThrows fallback = fallback ∧
      safeGet StorageRead.missing fallback = fallback ∧
      safeGet StorageRead.corrupt fallback = fallback ∧
      safeSet WriteEnd.unavailable stored v = stored ∧
      safeSet WriteEnd.setThrows stored v = stored :=
  ⟨rfl, rfl, rfl, rfl, rfl, rfl⟩

/-- Claim C10: likePost gives every post whose id matches exactly one more
like and changes none of its other fields, leaves every non-matching post
exactly as it was, and returns the collection unchanged when no post has
the id. -/
theorem c10_likePost_frame (id : String) (posts : List Post) :
    List.Forall₂ (fun p q =>
        q.id = p.id ∧ q.authorId = p.authorId ∧ q.content = p.content ∧
          q.tags = p.tags ∧ q.createdAt = p.createdAt ∧
          q.likes = (if p.id = id then p.likes + 1 else p.likes))
      posts (likePost id posts) ∧
      ((∀ p ∈ posts, p.id ≠ id) → likePost id posts = posts) := by
  constructor
  · induction posts with
    | nil => exact List.Forall₂.nil
    | cons p rest ih =>
      refine List.Forall₂.cons ?_ ih
      by_cases h : p.id = id <;> simp [h]
  · intro h
    induction posts with
    | nil => rfl
    | cons p rest ih =>
      have hp : p.id ≠ id := h p (List.mem_cons_self p rest)
      have hrest := ih fun q hq => h q (List.mem_cons_of_mem p hq)
      simp only [likePost, List.map_cons, if_neg hp] at hrest ⊢
      rw [hrest]

/-- Claim C10, witness: liking an id that no post carries leaves the
collection unchanged. -/
theorem c10_likePost_frame_witness :
    likePost "p_nobody" [postX, postY] = [postX, postY] :=
  (c10_likePost_frame "p_nobody" [postX, postY]).2 (by decide)

/-- Claim C4, counterexample: recordMood with a non-numeric string value
appends a sample instead of ignoring the call — the stored mood sequence
does change. -/
theorem c4_counterexample :
    (recordMoodState (JVal.str "oops") 5 emptyInsight).mood ≠
        emptyInsight.mood ∧
      (recordMoodState (JVal.str "oops") 5 emptyInsight).mood =
        [⟨JVal.str "oops", 5⟩] := by
  decide

/-- Claim C4, amended: recordMood appends a sample pairing the given value
— numeric or not, the code checks nothing — with the current time; the
new sample is always the last retained one, and below the 80-sample cap
the sequence is exactly the old one plus the new sample. -/
theorem c4_recordMood_appends (v : JVal) (now : Nat) (s : InsightState) :
    (recordMoodState v now s).mood.getLast? = some ⟨v, now⟩ ∧
      (s.mood.length < 80 →
        (recordMoodState v now s).mood = s.mood ++ [⟨v, now⟩]) := by
  refine ⟨recordMood_getLast v now s, fun h => ?_⟩
  simp only [recordMoodState]
  refine takeLast_of_length_le ?_
  rw [List.length_append]
  simp
  omega

/-- Claim C4, witness: one recordMood call on the fresh state retains
exactly the one new sample. -/
theorem c4_recordMood_appends_witness :
    (recordMoodState JVal.null 3 emptyInsight).mood = [⟨JVal.null, 3⟩] := by
  have h := (c4_recordMood_appends JVal.null 3 emptyInsight).2 (by decide)
  simpa using h

/-- A whole mood history fed through recordMood, oldest first, starting
from the fresh empty state. -/
def runMoods (inputs : List (JVal × Nat)) : InsightState :=
  inputs.foldl (fun s p => recordMoodState p.1 p.2 s) emptyInsight

theorem takeLast_takeLast {α : Type} (n : Nat) (l : List α) :
    takeLast n (takeLast n l) = takeLast n l := by
  refine takeLast_of_length_le ?_
  rw [length_takeLast]
  omega

theorem runMoods_foldl (inputs : List (JVal × Nat)) :
    ∀ s : InsightState, s.mood = takeLast 80 s.mood →
      (inputs.foldl (fun s p => recordMoodState p.1 p.2 s) s).mood =
        takeLast 80 (s.mood ++ inputs.map fun p => ⟨p.1, p.2⟩) := by
  induction inputs with
  | nil =>
    intro s hs
    simpa using hs
  | cons p rest ih =>
    intro s hs
    rw [List.foldl_cons]
    have hstep : (recordMoodState p.1 p.2 s).mood =
        takeLast 80 (s.mood ++ [⟨p.1, p.2⟩]) := rfl
    have hinv : (recordMoodState p.1 p.2 s).mood =
        takeLast 80 (recordMoodState p.1 p.2 s).mood := by
      rw [hstep, takeLast_takeLast]
    rw [ih _ hinv, hstep, takeLast_takeLast_append, List.append_assoc]
    simp

/-- Claim C6: the retention bound is the constant 80 — inside the claimed
50 to 100 range — and after any sequence of recordMood calls the retained
moods are exactly the most recent at-most-80 samples in recording order:
the oldest are evicted first and the length never exceeds 80. -/
theorem c6_mood_retention (inputs : List (JVal × Nat)) :
    (50 ≤ 80 ∧ 80 ≤ 100) ∧
      (runMoods inputs).mood =
        takeLast 80 (inputs.map fun p => ⟨p.1, p.2⟩) ∧
      (runMoods inputs).mood.length ≤ 80 := by
  have h := runMoods_foldl inputs emptyInsight rfl
  have h2 : (runMoods inputs).mood =
      takeLast 80 (inputs.map fun p => (⟨p.1, p.2⟩ : MoodSample)) := by
    simpa [runMoods] using h
  refine ⟨⟨by norm_num, by norm_num⟩, h2, ?_⟩
  rw [h2, length_takeLast]
  omega

theorem getCount_bumpTag (u t : String) (ts : List (String × Nat)) :
    getCount (bumpTag u ts) t =
      getCount ts t + if t = u then 1 else 0 := by
  induction ts with
  | nil =>
    by_cases h : t = u
    · subst h; simp [bumpTag, getCount]
    · have h2 : ¬u = t := fun e => h e.symm
      simp [bumpTag, getCount, h, h2]
  | cons kc rest ih =>
    rcases kc with ⟨k, c⟩
    by_cases hk : k = u
    · subst hk
      by_cases ht : k = t
      · subst ht
        simp [bumpTag, getCount]
      · have ht2 : ¬t = k := fun e => ht e.symm
        simp [bumpTag, getCount, ht, ht2]
    · by_cases ht : k = t
      · have htu : ¬t = u := fun e => hk (ht.trans e)
        simp [bumpTag, getCount, hk, ht, htu]
      · simp [bumpTag, getCount, hk, ht, ih]

theorem getCount_foldl_bump (L : List String) (t : String) :
    ∀ ts, getCount (L.foldl (fun a b => bumpTag b a) ts) t =
      getCount ts t + L.count t := by
  induction L with
  | nil => intro ts; simp
  | cons u rest ih =>
    intro ts
    rw [List.foldl_cons, ih, getCount_bumpTag, List.count_cons]
    by_cases h : t = u
    · subst h; simp; omega
    · have h2 : ¬u = t := fun e => h e.symm
      simp [h, h2]

/-- Claim C5, counterexample: recordTags with a single blank tag adds the
empty-string key with counter one — a blank tag is not a no-op and does
add a key to the tag map. -/
theorem c5_counterexample :
    (recordTagsState [""] emptyInsight).tags = [("", 1)] ∧
      (recordTagsState [""] emptyInsight).tags ≠ emptyInsight.tags := by
  decide

/-- Claim C5, amended: recordTags increments the occurrence counter of
every tag by its number of occurrences in the list — blank tags included,
since the code filters nothing before bumping. -/
theorem c5_recordTags_counts (tags : List String) (s : InsightState)
    (t : String) :
    getCount (recordTagsState tags s).tags t =
      getCount s.tags t + tags.count t := by
  simp only [recordTagsState]
  exact getCount_foldl_bump tags t s.tags

/-- Claim C7: suggest returns exactly min(limit, number of distinct
recorded tags) tag names — hence at most limit, and fewer when fewer
distinct tags exist — the underlying entries ordered by descending
occurrence count, and the empty sequence for a zero limit or an empty
tag map. -/
theorem c7_suggest (s : InsightState) (limit : Nat) :
    (suggest s limit).length = min limit s.tags.length ∧
      suggest s 0 = [] ∧
      (s.tags = [] → suggest s limit = []) ∧
      (suggestEntries s limit).Pairwise (fun a b => b.2 ≤ a.2) ∧
      suggest s limit = (suggestEntries s limit).map Prod.fst := by
  refine ⟨?_, rfl, ?_, ?_, rfl⟩
  · simp [suggest, suggestEntries]
  · intro h
    simp [suggest, suggestEntries, h]
  · exact List.Pairwise.sublist (List.take_sublist _ _)
      (List.sorted_insertionSort byCount s.tags)

/-- Claim C7, witness: with no recorded tags, suggest returns the empty
sequence. -/
theorem c7_suggest_witness : suggest emptyInsight 3 = [] :=
  (c7_suggest emptyInsight 3).2.2.1 rfl

/-- Claim C2 (inferMood modelled from the spec, since the src draft does
not implement it): the neutral default 0.5 on no samples, the defensive
clamp keeping every result inside the unit interval, the clamped
arithmetic mean on any nonempty sample list, the identity on a single
in-range sample, and the bridge to the code: one recordMood of a numeric
v on the fresh state retains exactly the numeric sample v. -/
theorem c2_inferMood (ms : List ℚ) (v : ℚ) (now : Nat) :
    inferMood [] = 1 / 2 ∧
      (0 ≤ inferMood ms ∧ inferMood ms ≤ 1) ∧
      (ms ≠ [] → inferMood ms = clamp01 (ms.sum / ms.length)) ∧
      (0 ≤ v → v ≤ 1 → inferMood [v] = v) ∧
      moodNums (recordMoodState (JVal.num v) now emptyInsight).mood = [v] := by
  refine ⟨rfl, ⟨?_, ?_⟩, ?_, ?_, rfl⟩
  · cases ms with
    | nil => norm_num [inferMood]
    | cons a l => exact le_max_left _ _
  · cases ms with
    | nil => norm_num [inferMood]
    | cons a l => exact max_le (by norm_num) (min_le_left _ _)
  · intro h
    cases ms with
    | nil => exact absurd rfl h
    | cons a l => rfl
  · intro h0 h1
    show clamp01 ([v].sum / (([v].length : Nat) : ℚ)) = v
    have hs : [v].sum / (([v].length : Nat) : ℚ) = v := by
      simp
    rw [hs, clamp01, min_eq_right h1, max_eq_right h0]

/-- Claim C2, witness: a single recorded sample of 0.7 infers back 0.7. -/
theorem c2_inferMood_witness : inferMood [7 / 10] = 7 / 10 :=
  (c2_inferMood [7 / 10] (7 / 10) 0).2.2.2.1 (by norm_num) (by norm_num)

/-- A session with a parseable stored blob and failing durable writes. -/
def sessionLost : Session :=
  { base := emptyInsight, stored := some emptyInsight,
    readFallback := false, writeOk := false }

/-- Claim C3, counterexample: in sessionLost every durable write fails but
the durable read succeeds, so recordMood mutates a fresh parse of the
stored blob which is then discarded — the next in-session read returns
the old blob and the recorded sample is gone. -/
theorem c3_counterexample :
    sessionLost.writeOk = false ∧
      (dumpSession (recordMoodSession (JVal.num 1) 7 sessionLost)).mood
        = [] := by
  exact ⟨rfl, rfl⟩

/-- Claim C3, amended: when every durable write fails and the durable read
itself falls back — storage unavailable, or nothing parseable stored —
safeGet hands recordMood the module-level base object itself, the mood
update mutates that object in place, and a subsequent in-session read
still ends at it: the newly recorded sample is the last retained one. -/
theorem c3_recordMood_aliased (v : JVal) (now : Nat) (sess : Session)
    (hw : sess.writeOk = false)
    (hr : sess.readFallback = true ∨ sess.stored = none) :
    (dumpSession (recordMoodSession v now sess)).mood.getLast? =
      some ⟨v, now⟩ := by
  rcases hr with hr | hr
  · simp only [dumpSession, recordMoodSession, sessionRead, hr, if_true]
    exact recordMood_getLast v now sess.base
  · by_cases hf : sess.readFallback = true
    · simp only [dumpSession, recordMoodSession, sessionRead, hf, if_true]
      exact recordMood_getLast v now sess.base
    · simp only [dumpSession, recordMoodSession, sessionRead, hf, hr, hw,
        Bool.false_eq_true, if_false]
      exact recordMood_getLast v now sess.base

/-- A session with storage entirely unavailable: reads fall back and
writes fail. -/
def sessionOffline : Session :=
  { base := emptyInsight, stored := none, readFallback := true,
    writeOk := false }

/-- Claim C3, witness: with storage unavailable, a recorded sample is
still the last one a subsequent in-session read sees. -/
theorem c3_recordMood_aliased_witness :
    (dumpSession (recordMoodSession (JVal.num 1) 2 sessionOffline)).mood.getLast?
      = some ⟨JVal.num 1, 2⟩ :=
  c3_recordMood_aliased (JVal.num 1) 2 sessionOffline rfl (Or.inl rfl)

end MindLink
